import Mathlib

/-!
Verification of the client-auth-server Signer
(src/packages/sdk/src/client-auth-server/Signer.ts).

The Signer is embedded shallowly: its two persisted storage cells
(Account, ChainsInfo) and the in-memory wallet-client field form an
explicit state record, and each method of the class becomes a function
from that state to a result, a successor state, and a list of observable
events (storage writes, update-listener callbacks, communicator calls,
local session-client calls).  External collaborators (the communicator,
the session-client factory, viem) are modelled as oracle parameters or
opaque records.  JavaScript truthiness of numeric chain ids (`x || y`
takes `y` when `x` is 0 or undefined) is modelled explicitly, as the
source relies on `||` in several places.
-/

/-- Wallet addresses are opaque strings.  A stored account address is an
`Option Addr` because the runtime can produce a record without an address
(spreading a null account in `switchChain`), even though the TypeScript
type declares it present. -/
def Addr := String
deriving DecidableEq, Repr

/-- A configured chain (viem `Chain`); only the id is relevant to the
Signer logic. -/
structure Chain where
  id : Nat
deriving DecidableEq, Repr, Inhabited

/-- One entry of the cached ChainsInfo list: per-chain contract addresses
and capabilities returned by the auth server during handshake, kept
opaque. -/
structure ChainInfo where
  id : Nat
  contracts : Nat
  capabilities : Nat
deriving DecidableEq, Repr, Inhabited

/-- A delegated signing session: `{ sessionKey, sessionConfig }`. -/
structure SessionData where
  sessionKey : Nat
  sessionConfig : Nat
deriving DecidableEq, Repr, Inhabited

/-- The persisted Account record (`type Account` in Signer.ts). -/
structure Account where
  address : Option Addr
  activeChainId : Nat
  session : Option SessionData
deriving DecidableEq, Repr

/-- The local session client, recorded by its creation parameters
(`createZksyncSessionClient` is an external collaborator). -/
structure WalletClient where
  address : Option Addr
  sessionKey : Nat
  sessionConfig : Nat
  contracts : Nat
  chainId : Nat
deriving DecidableEq, Repr

/-- The Signer state: the configured chain list, the two persisted
cells (`_account` with default null, `_chainsInfo` with default `[]`),
and the in-memory `walletClient` field. -/
structure SignerState where
  chains : List Chain
  accountCell : Option Account
  chainsInfoCell : List ChainInfo
  walletClient : Option WalletClient
deriving DecidableEq, Repr

/-- Observable events: storage-cell writes, update-listener callbacks,
communicator calls and local session-client calls. -/
inductive Event where
  | writeAccount (v : Option Account)
  | writeChainsInfo (v : List ChainInfo)
  | accountsUpdate (l : List (Option Addr))
  | chainUpdate (n : Nat)
  | commReady
  | commPost (method : String) (chainId : Nat)
  | localSendTx
  | localEstimateGas
deriving DecidableEq, Repr

/-- Result of one operation: a normal value or a thrown error. -/
inductive Outcome (α : Type) where
  | ok (a : α)
  | thrown (e : String)
deriving DecidableEq, Repr

/-- An operation run: outcome, state afterwards (also on throw, since
storage writes that already happened persist), and emitted events. -/
structure Res (α : Type) where
  out : Outcome α
  s : SignerState
  events : List Event
deriving DecidableEq, Repr

def Outcome.isOkB : Outcome α → Bool
  | .ok _ => true
  | .thrown _ => false

def exceptIsOk : Except String α → Bool
  | .ok _ => true
  | .error _ => false

/-- JavaScript `x || y` on an optional number: `y` when `x` is undefined
or the (falsy) number 0. -/
def jsOrN (x : Option Nat) (y : Nat) : Nat :=
  match x with
  | some n => if n = 0 then y else n
  | none => y

namespace Signer

/-- The `account` getter: reads the cell and substitutes, at read time
only, an `activeChainId` that matches no configured chain by the first
configured chain id (`chain?.id || this.chains[0]!.id`). -/
def account (s : SignerState) : Option Account :=
  match s.accountCell with
  | none => none
  | some a =>
    let chain := s.chains.find? fun e => e.id = a.activeChainId
    some { a with activeChainId := jsOrN (chain.map Chain.id) s.chains.headI.id }

/-- The `session` getter: `this.account?.session`. -/
def session (s : SignerState) : Option SessionData :=
  (account s).bind Account.session

/-- The id of the active chain:
`this.account?.activeChainId || this.chains[0]!.id`. -/
def chainId (s : SignerState) : Nat :=
  jsOrN ((account s).map Account.activeChainId) s.chains.headI.id

/-- The `chain` getter: `this.chains.find((e) => e.id === chainId)!`
(the non-null assertion is modelled by a default). -/
def chain (s : SignerState) : Chain :=
  (s.chains.find? fun e => e.id = chainId s).getD default

/-- The `accounts` getter:
`this.account ? [this.account.address] : []`. -/
def accounts (s : SignerState) : List (Option Addr) :=
  match account s with
  | some a => [a.address]
  | none => []

/-- `createWalletClient()`: reads session, active chain and its
ChainsInfo entry; throws when there is no account or no entry for the
active chain; builds the session client when a session exists, else
resets `walletClient` to undefined. -/
def createWalletClient (s : SignerState) : Except String SignerState :=
  match account s with
  | none => .error "Account is not set"
  | some a =>
    match s.chainsInfoCell.find? fun e => e.id = (chain s).id with
    | none => .error "Chain info was not set during handshake"
    | some ci =>
      match a.session with
      | some sess =>
        Except.ok { s with walletClient := some (WalletClient.mk a.address sess.sessionKey sess.sessionConfig ci.contracts (chain s).id) }
      | none => Except.ok { s with walletClient := none }

/-- `this._account.set(v)` / `this._account.remove()` (remove is set to
the default, null).  Modelled from the spec: the StorageItem cell (from
`utils/storage.js`, not among the given sources) stores the value, then
invokes the on-change callback synchronously with the new value; the
Signer wires that callback to the listener updates and, for a non-null
value, to `createWalletClient()`, whose exception propagates out of the
set after the write took effect. -/
def setAccount (s : SignerState) (v : Option Account) : Res Unit :=
  match v with
  | some a =>
    match createWalletClient { s with accountCell := some a } with
    | .error e => ⟨.thrown e, { s with accountCell := some a },
        [Event.writeAccount (some a), Event.accountsUpdate [a.address], Event.chainUpdate a.activeChainId]⟩
    | .ok s2 => ⟨.ok (), s2,
        [Event.writeAccount (some a), Event.accountsUpdate [a.address], Event.chainUpdate a.activeChainId]⟩
  | none => ⟨.ok (), { s with accountCell := none },
      [Event.writeAccount none, Event.accountsUpdate []]⟩

/-- `this._chainsInfo.set(v)` / `.remove()`.  Modelled from the spec:
this cell is constructed without an on-change callback, so a write emits
no listener event. -/
def setChainsInfo (s : SignerState) (v : List ChainInfo) : Res Unit :=
  ⟨.ok (), { s with chainsInfoCell := v }, [Event.writeChainsInfo v]⟩

/-- `clearState`: remove both cells (account first, then chainsInfo). -/
def clearState (s : SignerState) : Res Unit :=
  let r1 := setAccount s none
  let r2 := setChainsInfo r1.s []
  ⟨.ok (), r2.s, r1.events ++ r2.events⟩

/-- The record persisted by a non-trivial `switchChain`: the spread of the
`account` getter value, `...this.account!`, with `activeChainId` replaced by
the new chain id; spreading a null account yields a record with no address
and no session, as the JavaScript spread of null does. -/
def switchTarget (s : SignerState) (c : Chain) : Account :=
  match account s with
  | some a => { a with activeChainId := c.id }
  | none => ⟨none, c.id, none⟩

/-- `switchChain(chainId)`: looks the id up in the configured chains and
in the cached ChainsInfo (ChainsInfo checked first), fails softly with
`false` when the ChainsInfo entry or the configured chain is missing,
returns `true` without mutation when the id is already active, otherwise
persists the account with the new `activeChainId`. -/
def switchChain (s : SignerState) (cid : Nat) : Res Bool :=
  match s.chainsInfoCell.find? fun e => e.id = cid with
  | none => ⟨.ok false, s, []⟩
  | some _ =>
    match s.chains.find? fun c => c.id = cid with
    | none => ⟨.ok false, s, []⟩
    | some c =>
      if c.id = chainId s then ⟨.ok true, s, []⟩
      else
        match setAccount s (some (switchTarget s c)) with
        | ⟨.ok _, s2, evs⟩ => ⟨.ok true, s2, evs⟩
        | ⟨.thrown e, s2, evs⟩ => ⟨.thrown e, s2, evs⟩

/-- A response content delivered by the communicator: `{ result }` or
`{ error }`, never both. -/
inductive RC (α : Type) where
  | result (v : α)
  | error (e : String)
deriving DecidableEq, Repr

/-- `sendRpcRequest`: awaits communicator readiness, posts the request
wrapped in a message whose content carries the active chain id, and
unwraps the result or throws the carried error.  The communicator reply
is an oracle parameter. -/
def sendRpcRequest (s : SignerState) (method : String) (resp : RC α) : Res α :=
  let evs := [Event.commReady, Event.commPost method (chainId s)]
  match resp with
  | .result v => ⟨.ok v, s, evs⟩
  | .error e => ⟨.thrown e, s, evs⟩

/-- The `eth_requestAccounts` handshake result:
`{ account: { address, activeChainId?, session? }, chainsInfo }`. -/
structure HandshakeData where
  address : Addr
  activeChainId : Option Nat
  session : Option SessionData
  chainsInfo : List ChainInfo
deriving DecidableEq, Repr

/-- `handshake()`: sends `eth_requestAccounts` over the communicator
(the metadata and session-preferences providers are advisory: their
failures are caught and only affect the posted message content, never
the persisted state, so they are elided here), then persists the
returned `chainsInfo`, then the Account, with
`activeChainId: handshakeData.account.activeChainId || this.chain.id`,
and returns `this.accounts` read from the final state. -/
def handshake (s : SignerState) (resp : RC HandshakeData) : Res (List (Option Addr)) :=
  match sendRpcRequest s "eth_requestAccounts" resp with
  | ⟨.thrown e, s1, evs⟩ => ⟨.thrown e, s1, evs⟩
  | ⟨.ok d, s1, evs⟩ =>
    let r1 := setChainsInfo s1 d.chainsInfo
    let acct : Account :=
      ⟨some d.address, jsOrN d.activeChainId (chainId r1.s), d.session⟩
    match setAccount r1.s (some acct) with
    | ⟨.thrown e, s2, evs2⟩ => ⟨.thrown e, s2, evs ++ r1.events ++ evs2⟩
    | ⟨.ok _, s2, evs2⟩ => ⟨.ok (accounts s2), s2, evs ++ r1.events ++ evs2⟩

/-- `disconnect()`: `this.clearState()`. -/
def disconnect (s : SignerState) : Res Unit :=
  clearState s

/-- `getClient(parameters?)`:
`parameters?.chainId || this.chain.id`, a fatal error when that chain is
not configured or when no wallet client was created. -/
def getClient (s : SignerState) (p : Option Nat) : Outcome WalletClient :=
  let cid := jsOrN p (chain s).id
  match s.chains.find? fun e => e.id = cid with
  | none => .thrown "Chain is not supported"
  | some _ =>
    match s.walletClient with
    | none => .thrown "Wallet client is not created"
    | some wc => .ok wc

end Signer

/-- The `wallet_switchEthereumChain` chain-id parameter: a number or a
hex string. -/
inductive ChainIdParam where
  | num (n : Nat)
  | hexStr (h : String)
deriving DecidableEq, Repr

/-- One hex digit (viem `hexToNumber` helper model). -/
def hexDigitVal (c : Char) : Nat :=
  if c.toNat ≥ 48 ∧ c.toNat ≤ 57 then c.toNat - 48
  else if c.toNat ≥ 97 ∧ c.toNat ≤ 102 then c.toNat - 87
  else if c.toNat ≥ 65 ∧ c.toNat ≤ 70 then c.toNat - 55
  else 0

/-- viem `hexToNumber` (external collaborator): parses a 0x-prefixed hex
string into a number. -/
def hexToNumber (h : String) : Nat :=
  ((h.drop 2).toList).foldl (fun acc c => acc * 16 + hexDigitVal c) 0

/-- `typeof chainId === "string" ? hexToNumber(chainId) : chainId`. -/
def normalizeChainId : ChainIdParam → Nat
  | .num n => n
  | .hexStr h => hexToNumber h

/-- The wallet RPC requests the dispatch distinguishes (`RequestArguments`);
parameters the Signer does not inspect stay opaque. -/
inductive Req where
  | estimateGas (p : Nat)
  | sendTransaction (tx : Nat)
  | switchEthereumChain (cid : ChainIdParam)
  | getCapabilities
  | ethAccounts
  | other (method : String) (p : Nat)
deriving DecidableEq, Repr

/-- The method name a request is posted under when forwarded. -/
def Req.method : Req → String
  | .estimateGas _ => "eth_estimateGas"
  | .sendTransaction _ => "eth_sendTransaction"
  | .switchEthereumChain _ => "wallet_switchEthereumChain"
  | .getCapabilities => "wallet_getCapabilities"
  | .ethAccounts => "eth_accounts"
  | .other m _ => m

/-- Results a `request` call can resolve with. -/
inductive RVal where
  | nullV
  | hash (h : Nat)
  | gas (g : Nat)
  | addrs (l : List (Option Addr))
  | caps (chainId : Nat) (c : Nat)
  | remote (v : Nat)
deriving DecidableEq, Repr

/-- Oracles for the external calls a `request` may make: the local
session client answers (`walletClient.request`, `sendTransaction`) and
the communicator reply for a forwarded request. -/
structure ExtCalls where
  gasVal : Nat
  txHash : Nat
  remote : Signer.RC Nat
deriving DecidableEq, Repr

namespace Signer

/-- `tryLocalHandling(request)`: the per-method local-handling policy.
`none` in the outcome is the "not handled" sentinel (undefined);
`some RVal.nullV` is a legitimate null result. -/
def tryLocalHandling (s : SignerState) (ext : ExtCalls) : Req → Res (Option RVal)
  | .estimateGas _ =>
    match s.walletClient, session s with
    | some _, some _ => ⟨.ok (some (RVal.gas ext.gasVal)), s, [Event.localEstimateGas]⟩
    | _, _ => ⟨.ok none, s, []⟩
  | .sendTransaction _ =>
    match s.walletClient, session s with
    | some _, some _ => ⟨.ok (some (RVal.hash ext.txHash)), s, [Event.localSendTx]⟩
    | _, _ => ⟨.ok none, s, []⟩
  | .switchEthereumChain p =>
    match switchChain s (normalizeChainId p) with
    | ⟨.ok true, s2, evs⟩ => ⟨.ok (some RVal.nullV), s2, evs⟩
    | ⟨.ok false, s2, evs⟩ => ⟨.ok none, s2, evs⟩
    | ⟨.thrown e, s2, evs⟩ => ⟨.thrown e, s2, evs⟩
  | .getCapabilities =>
    match s.chainsInfoCell.find? fun e => e.id = (chain s).id with
    | none => ⟨.thrown "Chain info is not set", s, []⟩
    | some ci => ⟨.ok (some (RVal.caps (chain s).id ci.capabilities)), s, []⟩
  | .ethAccounts => ⟨.ok (some (RVal.addrs (accounts s))), s, []⟩
  | .other _ _ => ⟨.ok none, s, []⟩

/-- `request(request)`: local handling first; the remote round-trip only
when the sentinel (undefined) came back. -/
def request (s : SignerState) (ext : ExtCalls) (req : Req) : Res RVal :=
  match tryLocalHandling s ext req with
  | ⟨.thrown e, s1, evs⟩ => ⟨.thrown e, s1, evs⟩
  | ⟨.ok (some v), s1, evs⟩ => ⟨.ok v, s1, evs⟩
  | ⟨.ok none, s1, evs⟩ =>
    match sendRpcRequest s1 req.method ext.remote with
    | ⟨.ok v, s2, evs2⟩ => ⟨.ok (RVal.remote v), s2, evs ++ evs2⟩
    | ⟨.thrown e, s2, evs2⟩ => ⟨.thrown e, s2, evs ++ evs2⟩

end Signer

/-- The Signer constructor: throws on an empty chain list; loads the two
persisted cells (their stored contents are parameters); when an account
is already present, attempts `createWalletClient()` and on failure
catches, logs and clears all persisted state. -/
def constructSigner (chains : List Chain) (storedAccount : Option Account)
    (storedChainsInfo : List ChainInfo) : Outcome (SignerState × List Event) :=
  if chains.isEmpty then
    .thrown "At least one chain must be included in the config"
  else
    let s0 := SignerState.mk chains storedAccount storedChainsInfo none
    match Signer.account s0 with
    | some _ =>
      match Signer.createWalletClient s0 with
      | .ok s1 => .ok (s1, [])
      | .error _ =>
        let r := Signer.clearState s0
        .ok (r.s, r.events)
    | none => .ok (s0, [])

/-- How many messages a trace posts to the communicator. -/
def remotePosts (evs : List Event) : Nat :=
  evs.countP fun e =>
    match e with
    | .commPost _ _ => true
    | _ => false

/-! ## General lemmas about the embedded operations -/

theorem headI_mem_of_ne_nil {α : Type} [Inhabited α] (l : List α) (h : l ≠ []) :
    l.headI ∈ l := by
  cases l with
  | nil => exact absurd rfl h
  | cons a t => exact List.mem_cons_self a t

theorem jsOrN_none (y : Nat) : jsOrN none y = y := rfl

theorem jsOrN_some (n y : Nat) : jsOrN (some n) y = if n = 0 then y else n := rfl

namespace Signer

theorem chainId_cell_none (s : SignerState) (h : s.accountCell = none) :
    chainId s = s.chains.headI.id := by
  unfold chainId account
  rw [h]
  rfl

theorem chainId_cell_some_mem (s : SignerState) (a : Account)
    (hc : s.accountCell = some a) (hm : a.activeChainId ∈ s.chains.map Chain.id)
    (hz : a.activeChainId ≠ 0) : chainId s = a.activeChainId := by
  unfold chainId account
  rw [hc]
  obtain ⟨c, hcmem, hcid⟩ := List.mem_map.mp hm
  cases hf : s.chains.find? (fun e => e.id = a.activeChainId) with
  | none =>
    exfalso
    have hno := List.find?_eq_none.mp hf c hcmem
    simp [hcid] at hno
  | some x =>
    have hx : x.id = a.activeChainId := by
      have := List.find?_some hf
      simpa using this
    simp [hf, hx, jsOrN, hz]

theorem chainId_cell_some_miss (s : SignerState) (a : Account)
    (hc : s.accountCell = some a) (hm : a.activeChainId ∉ s.chains.map Chain.id) :
    chainId s = s.chains.headI.id := by
  unfold chainId account
  rw [hc]
  have hf : s.chains.find? (fun e => e.id = a.activeChainId) = none := by
    apply List.find?_eq_none.mpr
    intro x hx
    simp only [decide_eq_true_eq]
    intro hxe
    exact hm (List.mem_map.mpr ⟨x, hx, hxe⟩)
  simp [hf, jsOrN]

theorem chainId_cases (s : SignerState) :
    chainId s = s.chains.headI.id ∨
      ∃ c ∈ s.chains, c.id ≠ 0 ∧ chainId s = c.id := by
  unfold chainId account
  cases hc : s.accountCell with
  | none => left; rfl
  | some a =>
    cases hf : s.chains.find? (fun e => e.id = a.activeChainId) with
    | none => left; simp [hf, jsOrN]
    | some c =>
      by_cases hz : c.id = 0
      · left; simp [hf, jsOrN, hz]
      · right
        refine ⟨c, List.mem_of_find?_eq_some hf, hz, ?_⟩
        simp [hf, jsOrN, hz]

theorem chainId_mem (s : SignerState) (h : s.chains ≠ []) :
    chainId s ∈ s.chains.map Chain.id := by
  rcases chainId_cases s with h1 | ⟨c, hcmem, _, h1⟩
  · rw [h1]; exact List.mem_map.mpr ⟨_, headI_mem_of_ne_nil _ h, rfl⟩
  · rw [h1]; exact List.mem_map.mpr ⟨c, hcmem, rfl⟩

theorem chainId_nz (s : SignerState) (h : s.chains ≠ [])
    (hz : ∀ c ∈ s.chains, c.id ≠ 0) : chainId s ≠ 0 := by
  obtain ⟨c, hcmem, hcid⟩ := List.mem_map.mp (chainId_mem s h)
  rw [← hcid]
  exact hz c hcmem

theorem chain_id_eq (s : SignerState) : (chain s).id = chainId s := by
  unfold chain
  cases hf : s.chains.find? (fun e => e.id = chainId s) with
  | some c =>
    have := List.find?_some hf
    simpa using this
  | none =>
    by_cases h : s.chains = []
    · have h0 : chainId s = 0 := by
        rcases chainId_cases s with h1 | ⟨c, hcmem, _, _⟩
        · rw [h1, h]; rfl
        · rw [h] at hcmem; cases hcmem
      simp [h0]
      rfl
    · exfalso
      obtain ⟨c, hcmem, hcid⟩ := List.mem_map.mp (chainId_mem s h)
      have hno := List.find?_eq_none.mp hf c hcmem
      simp [hcid] at hno

theorem accounts_cell_some (s : SignerState) (a : Account)
    (hc : s.accountCell = some a) : accounts s = [a.address] := by
  unfold accounts account
  rw [hc]

theorem accounts_cell_none (s : SignerState) (hc : s.accountCell = none) :
    accounts s = [] := by
  unfold accounts account
  rw [hc]

end Signer

namespace Signer

theorem createWalletClient_frame (s s2 : SignerState)
    (h : createWalletClient s = .ok s2) :
    s2.chains = s.chains ∧ s2.accountCell = s.accountCell ∧
      s2.chainsInfoCell = s.chainsInfoCell := by
  unfold createWalletClient at h
  cases ha : account s with
  | none => rw [ha] at h; simp at h
  | some a =>
    rw [ha] at h
    simp only [] at h
    cases hci : s.chainsInfoCell.find? (fun e => e.id = (chain s).id) with
    | none => rw [hci] at h; simp at h
    | some ci =>
      rw [hci] at h
      simp only [] at h
      cases hs : a.session with
      | none =>
        rw [hs] at h
        simp only [] at h
        injection h with h
        subst h
        exact ⟨rfl, rfl, rfl⟩
      | some sess =>
        rw [hs] at h
        simp only [] at h
        injection h with h
        subst h
        exact ⟨rfl, rfl, rfl⟩

theorem createWalletClient_ok (s : SignerState) (a : Account)
    (hc : s.accountCell = some a)
    (hci : ∃ ci ∈ s.chainsInfoCell, ci.id = chainId s) :
    ∃ s2, createWalletClient s = .ok s2 := by
  have hb : ∃ b, account s = some b := by
    unfold account
    rw [hc]
    exact ⟨_, rfl⟩
  obtain ⟨b, hbe⟩ := hb
  unfold createWalletClient
  rw [hbe]
  simp only []
  cases hf : s.chainsInfoCell.find? (fun e => e.id = (chain s).id) with
  | none =>
    exfalso
    obtain ⟨ci, hmem, hid⟩ := hci
    have hno := List.find?_eq_none.mp hf ci hmem
    rw [chain_id_eq] at hno
    simp [hid] at hno
  | some ci =>
    simp only []
    cases hs : b.session with
    | none => exact ⟨_, rfl⟩
    | some sess => exact ⟨_, rfl⟩

theorem createWalletClient_wc (s s2 : SignerState)
    (h : createWalletClient s = .ok s2) (wc : WalletClient)
    (hw : s2.walletClient = some wc) :
    ∃ ci ∈ s.chainsInfoCell, ci.id = chainId s ∧ wc.contracts = ci.contracts := by
  unfold createWalletClient at h
  cases ha : account s with
  | none => rw [ha] at h; simp at h
  | some a =>
    rw [ha] at h
    simp only [] at h
    cases hci : s.chainsInfoCell.find? (fun e => e.id = (chain s).id) with
    | none => rw [hci] at h; simp at h
    | some ci =>
      rw [hci] at h
      simp only [] at h
      have hidci : ci.id = chainId s := by
        have hp := List.find?_some hci
        rw [chain_id_eq] at hp
        simpa using hp
      cases hs : a.session with
      | none =>
        rw [hs] at h
        simp only [] at h
        injection h with h
        subst h
        simp at hw
      | some sess =>
        rw [hs] at h
        simp only [] at h
        injection h with h
        subst h
        simp at hw
        refine ⟨ci, List.mem_of_find?_eq_some hci, hidci, ?_⟩
        rw [← hw]

end Signer

namespace Signer

theorem switchTarget_activeChainId (s : SignerState) (c : Chain) :
    (switchTarget s c).activeChainId = c.id := by
  unfold switchTarget
  cases account s <;> rfl

theorem remotePosts_setAccount (s : SignerState) (v : Option Account) :
    remotePosts (setAccount s v).events = 0 := by
  unfold setAccount
  cases v with
  | none => simp [remotePosts]
  | some a =>
    cases hcw : createWalletClient { s with accountCell := some a } with
    | error e => simp [hcw, remotePosts]
    | ok s2 => simp [hcw, remotePosts]

theorem switchChain_false (s : SignerState) (n : Nat)
    (h : (switchChain s n).out = Outcome.ok false) :
    switchChain s n = ⟨Outcome.ok false, s, []⟩ := by
  unfold switchChain at h ⊢
  cases hci : s.chainsInfoCell.find? (fun e => e.id = n) with
  | none => rfl
  | some ci =>
    rw [hci] at h
    simp only [] at h
    cases hch : s.chains.find? (fun c => c.id = n) with
    | none => rfl
    | some c =>
      rw [hch] at h
      simp only [] at h ⊢
      by_cases he : c.id = chainId s
      · rw [if_pos he] at h
        exact absurd h (by simp)
      · rw [if_neg he] at h
        exfalso
        rcases hsa : setAccount s (some (switchTarget s c)) with ⟨o, s3, e3⟩
        rw [hsa] at h
        cases o with
        | ok u => simp at h
        | thrown e => simp at h

theorem remotePosts_switchChain (s : SignerState) (n : Nat) :
    remotePosts (switchChain s n).events = 0 := by
  unfold switchChain
  cases hci : s.chainsInfoCell.find? (fun e => e.id = n) with
  | none => rfl
  | some ci =>
    cases hch : s.chains.find? (fun c => c.id = n) with
    | none => rfl
    | some c =>
      simp only []
      by_cases he : c.id = chainId s
      · rw [if_pos he]
        rfl
      · rw [if_neg he]
        rcases hsa : setAccount s (some (switchTarget s c)) with ⟨o, s3, e3⟩
        have he3 : remotePosts e3 = 0 := by
          have := remotePosts_setAccount s (some (switchTarget s c))
          rw [hsa] at this
          exact this
        cases o with
        | ok u => simpa using he3
        | thrown e => simpa using he3

end Signer

namespace Signer

theorem chainId_congr (s t : SignerState) (h1 : s.chains = t.chains)
    (h2 : s.accountCell = t.accountCell) : chainId s = chainId t := by
  unfold chainId account
  rw [h1, h2]

end Signer

/-! ## Concrete fixtures used by witnesses and counterexamples -/

def stC1w : SignerState :=
  ⟨[⟨1⟩, ⟨10⟩], some ⟨some "0xA", 1, none⟩, [⟨1, 11, 21⟩, ⟨10, 12, 22⟩], none⟩

def stC1x : SignerState :=
  ⟨[⟨5⟩, ⟨0⟩], some ⟨some "0xA", 5, none⟩, [⟨0, 1, 2⟩], none⟩

def stC3w : SignerState := ⟨[⟨1⟩], some ⟨some "0xA", 1, none⟩, [⟨1, 11, 21⟩], none⟩

def stC3x : SignerState := ⟨[⟨1⟩], some ⟨some "0xA", 1, none⟩, [], none⟩

def stC9w : SignerState := ⟨[⟨1⟩], some ⟨some "0xA", 42, none⟩, [], none⟩

/-! ## Claim theorems -/

/-- C8: constructing a Signer throws iff the configured chain list is
empty; for every list with at least one entry construction never throws
(the resumed-state rebuild failure is caught), and for the empty list it
always throws. -/
theorem C8_constructor_iff (chains : List Chain) (acct : Option Account)
    (ci : List ChainInfo) :
    (constructSigner chains acct ci).isOkB = true ↔ chains ≠ [] := by
  unfold constructSigner
  cases chains with
  | nil => simp [Outcome.isOkB]
  | cons c t =>
    simp only [List.isEmpty_cons, Bool.false_eq_true, if_false]
    cases ha : Signer.account ⟨c :: t, acct, ci, none⟩ with
    | none => simp [Outcome.isOkB]
    | some b =>
      cases hcw : Signer.createWalletClient ⟨c :: t, acct, ci, none⟩ with
      | ok s1 => simp [Outcome.isOkB]
      | error e => simp [Outcome.isOkB]

/-- C9: a persisted Account whose activeChainId matches no configured
chain is read back with the first configured chain id substituted (a
member of the configured list), and the read leaves the persisted record
untouched. -/
theorem C9_account_fallback (s : SignerState) (a : Account)
    (hne : s.chains ≠ []) (hc : s.accountCell = some a)
    (hm : a.activeChainId ∉ s.chains.map Chain.id) :
    Signer.account s = some { a with activeChainId := s.chains.headI.id } ∧
    s.chains.headI.id ∈ s.chains.map Chain.id ∧
    s.accountCell = some a := by
  refine ⟨?_, List.mem_map.mpr ⟨_, headI_mem_of_ne_nil _ hne, rfl⟩, hc⟩
  unfold Signer.account
  rw [hc]
  have hf : s.chains.find? (fun e => e.id = a.activeChainId) = none := by
    apply List.find?_eq_none.mpr
    intro x hx
    simp only [decide_eq_true_eq]
    intro hxe
    exact hm (List.mem_map.mpr ⟨x, hx, hxe⟩)
  simp [hf, jsOrN]

/-- C9 witness: with chains `[1]` and a persisted activeChainId 42, the
account is read with activeChainId 1 while the cell still holds 42. -/
theorem C9_witness :
    Signer.account stC9w = some ⟨some "0xA", 1, none⟩ ∧
    1 ∈ stC9w.chains.map Chain.id ∧
    stC9w.accountCell = some ⟨some "0xA", 42, none⟩ :=
  C9_account_fallback stC9w ⟨some "0xA", 42, none⟩ (by decide) rfl (by decide)

/-- C7: when an account exists in storage at construction and the
session-client rebuild throws, the constructor catches the error and
clears both persisted slots, ending in a disconnected state. -/
theorem C7_constructor_selfheal (chains : List Chain) (a : Account)
    (ci : List ChainInfo) (hne : chains ≠ [])
    (hfail : exceptIsOk (Signer.createWalletClient ⟨chains, some a, ci, none⟩) = false) :
    constructSigner chains (some a) ci =
      Outcome.ok (⟨chains, none, [], none⟩,
        [Event.writeAccount none, Event.accountsUpdate [], Event.writeChainsInfo []]) := by
  unfold constructSigner
  have hemp : chains.isEmpty = false := by
    cases chains with
    | nil => exact absurd rfl hne
    | cons c t => rfl
  rw [hemp]
  simp only [Bool.false_eq_true, if_false]
  have hb : ∃ b, Signer.account ⟨chains, some a, ci, none⟩ = some b := by
    unfold Signer.account
    exact ⟨_, rfl⟩
  obtain ⟨b, hbe⟩ := hb
  rw [hbe]
  simp only []
  cases hcw : Signer.createWalletClient ⟨chains, some a, ci, none⟩ with
  | ok s1 => rw [hcw] at hfail; simp [exceptIsOk] at hfail
  | error e => rfl

/-- C7 witness: chains `[1]`, a stored account on chain 1 and an empty
ChainsInfo cache make the rebuild throw; construction succeeds with both
slots cleared. -/
theorem C7_witness :
    constructSigner [⟨1⟩] (some ⟨some "0xA", 1, none⟩) [] =
      Outcome.ok (⟨[⟨1⟩], none, [], none⟩,
        [Event.writeAccount none, Event.accountsUpdate [], Event.writeChainsInfo []]) :=
  C7_constructor_selfheal [⟨1⟩] ⟨some "0xA", 1, none⟩ [] (by decide) (by decide)

/-- C3 counterexample: chains `[1]`, active chain 1, empty ChainsInfo
cache: `switchChain(1)` targets the already-active chain yet returns
`false`, because the ChainsInfo lookup is checked before the no-op
shortcut. -/
theorem C3_counterexample :
    Signer.chainId stC3x = 1 ∧
    (Signer.switchChain stC3x 1).out = Outcome.ok false := by decide

/-- C3 amended: when chainId already equals the active chain id,
`switchChain` performs no state mutation and emits no event, but it
returns `true` only when the cached ChainsInfo has an entry for that
chain; with no entry it returns `false` (still without mutation). -/
theorem C3_switchChain_noop (s : SignerState) (n : Nat)
    (hne : s.chains ≠ []) (hact : n = Signer.chainId s) :
    Signer.switchChain s n =
      ⟨Outcome.ok (s.chainsInfoCell.any fun e => e.id = n), s, []⟩ := by
  unfold Signer.switchChain
  cases hci : s.chainsInfoCell.find? (fun e => e.id = n) with
  | none =>
    have hany : (s.chainsInfoCell.any fun e => e.id = n) = false := by
      rw [List.any_eq_false]
      intro x hx
      have hno := List.find?_eq_none.mp hci x hx
      simpa using hno
    rw [hany]
  | some ci =>
    have hany : (s.chainsInfoCell.any fun e => e.id = n) = true := by
      rw [List.any_eq_true]
      refine ⟨ci, List.mem_of_find?_eq_some hci, ?_⟩
      have hp := List.find?_some hci
      simpa using hp
    rw [hany]
    simp only []
    have hmem : n ∈ s.chains.map Chain.id := hact ▸ Signer.chainId_mem s hne
    cases hch : s.chains.find? (fun c => c.id = n) with
    | none =>
      exfalso
      obtain ⟨c, hc, hcid⟩ := List.mem_map.mp hmem
      have hno := List.find?_eq_none.mp hch c hc
      simp [hcid] at hno
    | some c =>
      have hcn : c.id = n := by
        have hp := List.find?_some hch
        simpa using hp
      simp only []
      rw [if_pos (hcn.trans hact)]

/-- C3 witness: chains `[1]`, active chain 1 and a ChainsInfo entry for
chain 1: `switchChain(1)` is a no-op success. -/
theorem C3_witness :
    Signer.switchChain stC3w 1 = ⟨Outcome.ok true, stC3w, []⟩ :=
  C3_switchChain_noop stC3w 1 (by decide) (by decide)

/-- C1 counterexample: with a configured chain of id 0 (chains `[5, 0]`,
active chain 5, ChainsInfo entry for 0), chainId 0 is in both lists yet
`switchChain(0)` neither returns `true` nor returns `false`: the falsy
id 0 makes the active chain resolve back to 5, whose ChainsInfo entry is
missing, so the rebuild inside the account write throws. -/
theorem C1_counterexample :
    (0 ∈ stC1x.chains.map Chain.id ∧ 0 ∈ stC1x.chainsInfoCell.map ChainInfo.id) ∧
    (Signer.switchChain stC1x 0).out ≠ Outcome.ok true ∧
    (Signer.switchChain stC1x 0).out ≠ Outcome.ok false := by decide

/-- C1 amended: provided every configured chain id is nonzero,
`switchChain(chainId)` returns `true` with the active chain equal to
chainId iff chainId is both a configured chain and present in the cached
ChainsInfo; in every other case it returns `false` and leaves the whole
state (both persisted slots included) unchanged. -/
theorem C1_switchChain_iff (s : SignerState) (n : Nat)
    (hz : ∀ c ∈ s.chains, c.id ≠ 0) :
    (((Signer.switchChain s n).out = Outcome.ok true ∧
        Signer.chainId (Signer.switchChain s n).s = n) ↔
      (n ∈ s.chains.map Chain.id ∧ n ∈ s.chainsInfoCell.map ChainInfo.id)) ∧
    ((n ∉ s.chains.map Chain.id ∨ n ∉ s.chainsInfoCell.map ChainInfo.id) →
      Signer.switchChain s n = ⟨Outcome.ok false, s, []⟩) := by
  by_cases hin : n ∈ s.chains.map Chain.id ∧ n ∈ s.chainsInfoCell.map ChainInfo.id
  · obtain ⟨hmemC, hmemI⟩ := hin
    have hmain : (Signer.switchChain s n).out = Outcome.ok true ∧
        Signer.chainId (Signer.switchChain s n).s = n := by
      unfold Signer.switchChain
      cases hci : s.chainsInfoCell.find? (fun e => e.id = n) with
      | none =>
        exfalso
        obtain ⟨x, hx, hxid⟩ := List.mem_map.mp hmemI
        have hno := List.find?_eq_none.mp hci x hx
        simp [hxid] at hno
      | some ci =>
        simp only []
        cases hch : s.chains.find? (fun c => c.id = n) with
        | none =>
          exfalso
          obtain ⟨c, hcm, hcid⟩ := List.mem_map.mp hmemC
          have hno := List.find?_eq_none.mp hch c hcm
          simp [hcid] at hno
        | some c2 =>
          have hc2 : c2.id = n := by
            have hp := List.find?_some hch
            simpa using hp
          simp only []
          by_cases he : c2.id = Signer.chainId s
          · rw [if_pos he]
            exact ⟨rfl, by rw [← hc2, he]⟩
          · rw [if_neg he]
            have hz2 : c2.id ≠ 0 := hz c2 (List.mem_of_find?_eq_some hch)
            have hciid : ci.id = n := by
              have hp := List.find?_some hci
              simpa using hp
            have hchain1 :
                Signer.chainId { s with accountCell := some (Signer.switchTarget s c2) } = n := by
              have hstep := Signer.chainId_cell_some_mem
                { s with accountCell := some (Signer.switchTarget s c2) }
                (Signer.switchTarget s c2) rfl
                (by rw [Signer.switchTarget_activeChainId, hc2]; exact hmemC)
                (by rw [Signer.switchTarget_activeChainId]; exact hz2)
              rw [hstep, Signer.switchTarget_activeChainId, hc2]
            obtain ⟨s2, hcw⟩ := Signer.createWalletClient_ok
              { s with accountCell := some (Signer.switchTarget s c2) }
              (Signer.switchTarget s c2) rfl
              ⟨ci, List.mem_of_find?_eq_some hci, by rw [hchain1]; exact hciid⟩
            have hsa : Signer.setAccount s (some (Signer.switchTarget s c2)) =
                ⟨Outcome.ok (), s2,
                  [Event.writeAccount (some (Signer.switchTarget s c2)),
                    Event.accountsUpdate [(Signer.switchTarget s c2).address],
                    Event.chainUpdate (Signer.switchTarget s c2).activeChainId]⟩ := by
              unfold Signer.setAccount
              simp only []
              rw [hcw]
            rw [hsa]
            refine ⟨rfl, ?_⟩
            show Signer.chainId s2 = n
            obtain ⟨hf1, hf2, hf3⟩ := Signer.createWalletClient_frame _ _ hcw
            have hcg := Signer.chainId_congr s2
              { s with accountCell := some (Signer.switchTarget s c2) } hf1 hf2
            rw [hcg]
            exact hchain1
    refine ⟨⟨fun _ => ⟨hmemC, hmemI⟩, fun _ => hmain⟩, ?_⟩
    intro hcontra
    rcases hcontra with h | h
    · exact absurd hmemC h
    · exact absurd hmemI h
  · have hres : Signer.switchChain s n = ⟨Outcome.ok false, s, []⟩ := by
      unfold Signer.switchChain
      cases hci : s.chainsInfoCell.find? (fun e => e.id = n) with
      | none => rfl
      | some ci =>
        simp only []
        cases hch : s.chains.find? (fun c => c.id = n) with
        | none => rfl
        | some c2 =>
          exfalso
          refine hin ⟨List.mem_map.mpr ⟨c2, List.mem_of_find?_eq_some hch, ?_⟩,
            List.mem_map.mpr ⟨ci, List.mem_of_find?_eq_some hci, ?_⟩⟩
          · have hp := List.find?_some hch
            simpa using hp
          · have hp := List.find?_some hci
            simpa using hp
    refine ⟨⟨?_, fun hboth => absurd hboth hin⟩, fun _ => hres⟩
    rintro ⟨h1, -⟩
    rw [hres] at h1
    simp at h1

/-- C1 witness: chains `[1, 10]` with ChainsInfo for both and active
chain 1: `switchChain(10)` succeeds and activates chain 10, and the
failure clause holds vacuously. -/
theorem C1_witness :
    (((Signer.switchChain stC1w 10).out = Outcome.ok true ∧
        Signer.chainId (Signer.switchChain stC1w 10).s = 10) ↔
      (10 ∈ stC1w.chains.map Chain.id ∧ 10 ∈ stC1w.chainsInfoCell.map ChainInfo.id)) ∧
    ((10 ∉ stC1w.chains.map Chain.id ∨ 10 ∉ stC1w.chainsInfoCell.map ChainInfo.id) →
      Signer.switchChain stC1w 10 = ⟨Outcome.ok false, stC1w, []⟩) :=
  C1_switchChain_iff stC1w 10 (by decide)

def hdC5 : Signer.HandshakeData := ⟨"0xA", some 1, some ⟨5, 6⟩, []⟩

/-- The state left by a handshake whose response carried a session but an
empty chainsInfo list: the account (with its session) was persisted and
then the rebuild threw, so no wallet client exists. -/
def stC5x : SignerState :=
  (Signer.handshake ⟨[⟨1⟩], none, [], none⟩ (Signer.RC.result hdC5)).s

/-- C5 counterexample: in the post-failed-handshake state a session
exists on the current account, yet `eth_sendTransaction` is forwarded to
the communicator (the local session client is not invoked), because the
wallet client was never created. -/
theorem C5_counterexample :
    (Signer.session stC5x).isSome = true ∧
    Signer.request stC5x ⟨7, 8, Signer.RC.result 9⟩ (Req.sendTransaction 3) =
      ⟨Outcome.ok (RVal.remote 9), stC5x,
        [Event.commReady, Event.commPost "eth_sendTransaction" 1]⟩ := by decide

/-- C5 amended: `eth_sendTransaction` is handled by the local session
client iff a wallet client exists and a session exists (the two normally
coincide); otherwise the request is forwarded to the communicator
exactly once, in a message carrying the active chain id, with no local
call and no state change. -/
theorem C5_sendTransaction_dispatch (s : SignerState) (ext : ExtCalls) (tx : Nat) :
    ((s.walletClient.isSome = true ∧ (Signer.session s).isSome = true) →
      Signer.request s ext (Req.sendTransaction tx) =
        ⟨Outcome.ok (RVal.hash ext.txHash), s, [Event.localSendTx]⟩) ∧
    (¬(s.walletClient.isSome = true ∧ (Signer.session s).isSome = true) →
      (Signer.request s ext (Req.sendTransaction tx)).events =
        [Event.commReady, Event.commPost "eth_sendTransaction" (Signer.chainId s)] ∧
      (Signer.request s ext (Req.sendTransaction tx)).s = s) := by
  cases hw : s.walletClient with
  | some wc =>
    cases hse : Signer.session s with
    | some se =>
      constructor
      · intro hyes
        unfold Signer.request Signer.tryLocalHandling
        rw [hw, hse]
      · intro hno
        exact absurd ⟨rfl, rfl⟩ hno
    | none =>
      constructor
      · rintro ⟨h1, h2⟩
        simp at h2
      · intro hno
        unfold Signer.request Signer.tryLocalHandling
        rw [hw, hse]
        simp only []
        cases hr : ext.remote with
        | result v => simp [Signer.sendRpcRequest, hr, Req.method]
        | error e => simp [Signer.sendRpcRequest, hr, Req.method]
  | none =>
    constructor
    · rintro ⟨h1, h2⟩
      simp at h1
    · intro hno
      unfold Signer.request Signer.tryLocalHandling
      rw [hw]
      cases hse : Signer.session s with
      | some se =>
        simp only []
        cases hr : ext.remote with
        | result v => simp [Signer.sendRpcRequest, hr, Req.method]
        | error e => simp [Signer.sendRpcRequest, hr, Req.method]
      | none =>
        simp only []
        cases hr : ext.remote with
        | result v => simp [Signer.sendRpcRequest, hr, Req.method]
        | error e => simp [Signer.sendRpcRequest, hr, Req.method]

/-- C6: `wallet_switchEthereumChain` is handled locally: a hex chain id
is normalized by `hexToNumber` (`normalizeChainId`) and the switch is
delegated to `switchChain`; on switch success the request resolves with
the null result and posts nothing to the communicator (null is not the
"not handled" sentinel), and on switch failure the request is forwarded
to the remote authorizer in a message carrying the active chain id. -/
theorem C6_switchEthereumChain_local (s : SignerState) (ext : ExtCalls) (p : ChainIdParam) :
    ((Signer.switchChain s (normalizeChainId p)).out = Outcome.ok true →
      Signer.request s ext (Req.switchEthereumChain p) =
        ⟨Outcome.ok RVal.nullV, (Signer.switchChain s (normalizeChainId p)).s,
          (Signer.switchChain s (normalizeChainId p)).events⟩ ∧
      remotePosts (Signer.request s ext (Req.switchEthereumChain p)).events = 0) ∧
    ((Signer.switchChain s (normalizeChainId p)).out = Outcome.ok false →
      (Signer.request s ext (Req.switchEthereumChain p)).events =
        [Event.commReady, Event.commPost "wallet_switchEthereumChain" (Signer.chainId s)]) := by
  have h0 : remotePosts (Signer.switchChain s (normalizeChainId p)).events = 0 :=
    Signer.remotePosts_switchChain s (normalizeChainId p)
  rcases hsw : Signer.switchChain s (normalizeChainId p) with ⟨o, s2, evs⟩
  rw [hsw] at h0
  constructor
  · intro htrue
    simp only [] at htrue
    subst htrue
    have hreq : Signer.request s ext (Req.switchEthereumChain p) =
        ⟨Outcome.ok RVal.nullV, s2, evs⟩ := by
      unfold Signer.request Signer.tryLocalHandling
      simp only []
      rw [hsw]
    rw [hreq]
    exact ⟨rfl, h0⟩
  · intro hfalse
    simp only [] at hfalse
    subst hfalse
    have hres := Signer.switchChain_false s (normalizeChainId p) (by rw [hsw])
    have hcmp := hsw.symm.trans hres
    injection hcmp with h1 h2 h3
    subst h2
    subst h3
    unfold Signer.request Signer.tryLocalHandling
    simp only []
    rw [hsw]
    simp only []
    cases hr : ext.remote with
    | result v => simp [Signer.sendRpcRequest, hr, Req.method]
    | error e => simp [Signer.sendRpcRequest, hr, Req.method]

namespace Signer

theorem setAccount_some_cases (s : SignerState) (a : Account) :
    (∃ e, createWalletClient { s with accountCell := some a } = .error e ∧
      setAccount s (some a) = ⟨.thrown e, { s with accountCell := some a },
        [Event.writeAccount (some a), Event.accountsUpdate [a.address],
          Event.chainUpdate a.activeChainId]⟩) ∨
    (∃ s2, createWalletClient { s with accountCell := some a } = .ok s2 ∧
      setAccount s (some a) = ⟨.ok (), s2,
        [Event.writeAccount (some a), Event.accountsUpdate [a.address],
          Event.chainUpdate a.activeChainId]⟩) := by
  unfold setAccount
  simp only []
  cases hcw : createWalletClient { s with accountCell := some a } with
  | error e =>
    left
    exact ⟨e, rfl, rfl⟩
  | ok s2 =>
    right
    exact ⟨s2, rfl, rfl⟩

theorem handshake_result (s : SignerState) (d : HandshakeData) :
    handshake s (RC.result d) =
      (match setAccount { s with chainsInfoCell := d.chainsInfo }
          (some ⟨some d.address, jsOrN d.activeChainId (chainId s), d.session⟩) with
        | ⟨.thrown e, s2, evs2⟩ => ⟨.thrown e, s2,
            [Event.commReady, Event.commPost "eth_requestAccounts" (chainId s),
              Event.writeChainsInfo d.chainsInfo] ++ evs2⟩
        | ⟨.ok _, s2, evs2⟩ => ⟨.ok (accounts s2), s2,
            [Event.commReady, Event.commPost "eth_requestAccounts" (chainId s),
              Event.writeChainsInfo d.chainsInfo] ++ evs2⟩) := rfl

end Signer

/-- C10: within a successful handshake the ChainsInfo cell is written
strictly before the Account cell (the write events appear in that order,
with the communicator exchange before both), the persisted ChainsInfo is
the response's, and any wallet client built by the account write's
rebuild uses a contracts entry taken from the response's chainsInfo for
the resulting active chain — never the previously cached list. -/
theorem C10_handshake_order (s : SignerState) (d : Signer.HandshakeData)
    (hok : ((Signer.handshake s (Signer.RC.result d)).out).isOkB = true) :
    (Signer.handshake s (Signer.RC.result d)).events =
      [Event.commReady, Event.commPost "eth_requestAccounts" (Signer.chainId s),
        Event.writeChainsInfo d.chainsInfo,
        Event.writeAccount (some ⟨some d.address,
          jsOrN d.activeChainId (Signer.chainId s), d.session⟩),
        Event.accountsUpdate [some d.address],
        Event.chainUpdate (jsOrN d.activeChainId (Signer.chainId s))] ∧
    (Signer.handshake s (Signer.RC.result d)).s.chainsInfoCell = d.chainsInfo ∧
    (∀ wc, (Signer.handshake s (Signer.RC.result d)).s.walletClient = some wc →
      ∃ ci ∈ d.chainsInfo,
        ci.id = Signer.chainId (Signer.handshake s (Signer.RC.result d)).s ∧
        wc.contracts = ci.contracts) := by
  rcases Signer.setAccount_some_cases { s with chainsInfoCell := d.chainsInfo }
      ⟨some d.address, jsOrN d.activeChainId (Signer.chainId s), d.session⟩ with
    ⟨e, hcw, hsa⟩ | ⟨s2, hcw, hsa⟩
  · rw [Signer.handshake_result, hsa] at hok
    simp [Outcome.isOkB] at hok
  · have hh : Signer.handshake s (Signer.RC.result d) =
        ⟨Outcome.ok (Signer.accounts s2), s2,
          [Event.commReady, Event.commPost "eth_requestAccounts" (Signer.chainId s),
            Event.writeChainsInfo d.chainsInfo,
            Event.writeAccount (some ⟨some d.address,
              jsOrN d.activeChainId (Signer.chainId s), d.session⟩),
            Event.accountsUpdate [some d.address],
            Event.chainUpdate (jsOrN d.activeChainId (Signer.chainId s))]⟩ := by
      rw [Signer.handshake_result, hsa]
      rfl
    rw [hh]
    obtain ⟨hf1, hf2, hf3⟩ := Signer.createWalletClient_frame _ _ hcw
    refine ⟨rfl, ?_, ?_⟩
    · rw [hf3]
    · intro wc hwc
      obtain ⟨ci, hmem, hid, hcon⟩ := Signer.createWalletClient_wc _ _ hcw wc hwc
      refine ⟨ci, hmem, ?_, hcon⟩
      rw [hid]
      exact (Signer.chainId_congr s2 _ hf1 hf2).symm

def stC4x : SignerState := ⟨[⟨1⟩], none, [], none⟩

def hdC4x : Signer.HandshakeData := ⟨"0xA", some 42, none, [⟨1, 11, 21⟩]⟩

/-- C4 counterexample: chains `[1]`, handshake response with
activeChainId 42 (not configured): the handshake resolves, yet `chain`
resolves to 1, not to the response's activeChainId 42, because the read
of the persisted account falls back to the first configured chain. -/
theorem C4_counterexample :
    hdC4x.activeChainId = some 42 ∧
    (Signer.handshake stC4x (Signer.RC.result hdC4x)).out =
      Outcome.ok [some "0xA"] ∧
    Signer.chainId (Signer.handshake stC4x (Signer.RC.result hdC4x)).s = 1 := by decide

/-- C4 amended: for nonzero chain ids, after a handshake that resolves,
`accounts` is exactly the one-element list with the response's account
address, the response's chainsInfo is persisted verbatim and strictly
before the Account (the writeChainsInfo event precedes the writeAccount
event in the trace), and the active chain id equals the response's
activeChainId when one was given and is configured, the first configured
chain's id when one was given but is not configured, and the previously
active (default) chain id when none was given. -/
theorem C4_handshake_correct (s : SignerState) (d : Signer.HandshakeData)
    (hne : s.chains ≠ []) (hz : ∀ c ∈ s.chains, c.id ≠ 0)
    (hz2 : d.activeChainId ≠ some 0)
    (hok : ((Signer.handshake s (Signer.RC.result d)).out).isOkB = true) :
    (Signer.handshake s (Signer.RC.result d)).out = Outcome.ok [some d.address] ∧
    Signer.accounts (Signer.handshake s (Signer.RC.result d)).s = [some d.address] ∧
    (Signer.handshake s (Signer.RC.result d)).s.chainsInfoCell = d.chainsInfo ∧
    (Signer.handshake s (Signer.RC.result d)).events =
      [Event.commReady, Event.commPost "eth_requestAccounts" (Signer.chainId s),
        Event.writeChainsInfo d.chainsInfo,
        Event.writeAccount (some ⟨some d.address,
          jsOrN d.activeChainId (Signer.chainId s), d.session⟩),
        Event.accountsUpdate [some d.address],
        Event.chainUpdate (jsOrN d.activeChainId (Signer.chainId s))] ∧
    Signer.chainId (Signer.handshake s (Signer.RC.result d)).s =
      (match d.activeChainId with
        | some m => if m ∈ s.chains.map Chain.id then m else s.chains.headI.id
        | none => Signer.chainId s) := by
  rcases Signer.setAccount_some_cases { s with chainsInfoCell := d.chainsInfo }
      ⟨some d.address, jsOrN d.activeChainId (Signer.chainId s), d.session⟩ with
    ⟨e, hcw, hsa⟩ | ⟨s2, hcw, hsa⟩
  · rw [Signer.handshake_result, hsa] at hok
    simp [Outcome.isOkB] at hok
  · have hh : Signer.handshake s (Signer.RC.result d) =
        ⟨Outcome.ok (Signer.accounts s2), s2,
          [Event.commReady, Event.commPost "eth_requestAccounts" (Signer.chainId s),
            Event.writeChainsInfo d.chainsInfo,
            Event.writeAccount (some ⟨some d.address,
              jsOrN d.activeChainId (Signer.chainId s), d.session⟩),
            Event.accountsUpdate [some d.address],
            Event.chainUpdate (jsOrN d.activeChainId (Signer.chainId s))]⟩ := by
      rw [Signer.handshake_result, hsa]
      rfl
    obtain ⟨hf1, hf2, hf3⟩ := Signer.createWalletClient_frame _ _ hcw
    have hcell : s2.accountCell =
        some ⟨some d.address, jsOrN d.activeChainId (Signer.chainId s), d.session⟩ := by
      rw [hf2]
    have hacc : Signer.accounts s2 = [some d.address] :=
      Signer.accounts_cell_some s2 _ hcell
    rw [hh]
    refine ⟨?_, ?_, ?_, rfl, ?_⟩
    · show Outcome.ok (Signer.accounts s2) = Outcome.ok [some d.address]
      rw [hacc]
    · exact hacc
    · rw [hf3]
    · show Signer.chainId s2 = _
      cases hda : d.activeChainId with
      | none =>
        rw [hda] at hcell
        simp only []
        have hstep := Signer.chainId_cell_some_mem s2
          ⟨some d.address, jsOrN none (Signer.chainId s), d.session⟩ hcell ?_ ?_
        · rw [hstep]
          exact jsOrN_none _
        · rw [jsOrN_none]
          have hmem := Signer.chainId_mem s hne
          rw [hf1]
          exact hmem
        · rw [jsOrN_none]
          exact Signer.chainId_nz s hne hz
      | some m =>
        have hm0 : m ≠ 0 := by
          intro h
          exact hz2 (by rw [hda, h])
        rw [hda] at hcell
        rw [jsOrN_some, if_neg hm0] at hcell
        simp only []
        by_cases hmem : m ∈ s.chains.map Chain.id
        · rw [if_pos hmem]
          refine Signer.chainId_cell_some_mem s2 ⟨some d.address, m, d.session⟩ hcell ?_ hm0
          rw [hf1]
          exact hmem
        · rw [if_neg hmem]
          have hstep := Signer.chainId_cell_some_miss s2 ⟨some d.address, m, d.session⟩ hcell ?_
          · rw [hstep, hf1]
          · rw [hf1]
            exact hmem

def stC4w : SignerState := ⟨[⟨1⟩, ⟨10⟩], none, [], none⟩

def hdC4w : Signer.HandshakeData := ⟨"0xA", some 10, none, [⟨10, 12, 22⟩]⟩

/-- C4 witness: chains `[1, 10]`, response activating the configured
chain 10 with its ChainsInfo entry present: the handshake resolves with
the single account address and active chain 10. -/
theorem C4_witness :
    (Signer.handshake stC4w (Signer.RC.result hdC4w)).out = Outcome.ok [some "0xA"] ∧
    Signer.accounts (Signer.handshake stC4w (Signer.RC.result hdC4w)).s = [some "0xA"] ∧
    (Signer.handshake stC4w (Signer.RC.result hdC4w)).s.chainsInfoCell = [⟨10, 12, 22⟩] ∧
    (Signer.handshake stC4w (Signer.RC.result hdC4w)).events =
      [Event.commReady, Event.commPost "eth_requestAccounts" 1,
        Event.writeChainsInfo [⟨10, 12, 22⟩],
        Event.writeAccount (some ⟨some "0xA", 10, none⟩),
        Event.accountsUpdate [some "0xA"], Event.chainUpdate 10] ∧
    Signer.chainId (Signer.handshake stC4w (Signer.RC.result hdC4w)).s = 10 :=
  C4_handshake_correct stC4w hdC4w (by decide) (by decide) (by decide) (by decide)

def stC10w : SignerState := ⟨[⟨1⟩, ⟨10⟩], none, [⟨7, 70, 71⟩], none⟩

def hdC10w : Signer.HandshakeData := ⟨"0xA", some 10, some ⟨5, 6⟩, [⟨1, 11, 21⟩, ⟨10, 12, 22⟩]⟩

/-- C10 witness: a successful handshake with a session writes ChainsInfo
before the Account and builds the wallet client from the contracts of
the freshly delivered chainsInfo entry for chain 10, not from the
previously cached entry. -/
theorem C10_witness :
    (Signer.handshake stC10w (Signer.RC.result hdC10w)).events =
      [Event.commReady, Event.commPost "eth_requestAccounts" 1,
        Event.writeChainsInfo [⟨1, 11, 21⟩, ⟨10, 12, 22⟩],
        Event.writeAccount (some ⟨some "0xA", 10, some ⟨5, 6⟩⟩),
        Event.accountsUpdate [some "0xA"], Event.chainUpdate 10] ∧
    (Signer.handshake stC10w (Signer.RC.result hdC10w)).s.chainsInfoCell =
      [⟨1, 11, 21⟩, ⟨10, 12, 22⟩] ∧
    (∀ wc, (Signer.handshake stC10w (Signer.RC.result hdC10w)).s.walletClient = some wc →
      ∃ ci ∈ [(⟨1, 11, 21⟩ : ChainInfo), ⟨10, 12, 22⟩],
        ci.id = Signer.chainId (Signer.handshake stC10w (Signer.RC.result hdC10w)).s ∧
        wc.contracts = ci.contracts) :=
  C10_handshake_order stC10w hdC10w (by decide)

def stC2h : SignerState := ⟨[⟨1⟩, ⟨10⟩], none, [], none⟩

def hdC2 : Signer.HandshakeData := ⟨"0xA", some 10, some ⟨5, 6⟩, [⟨1, 11, 21⟩, ⟨10, 12, 22⟩]⟩

/-- The state after a handshake that created a session wallet client,
followed by `disconnect()`. -/
def stC2d : SignerState :=
  (Signer.disconnect (Signer.handshake stC2h (Signer.RC.result hdC2)).s).s

/-- C2: `disconnect()` does clear both persisted slots, and `accounts`
then reads empty — but a `getClient()` call afterwards does NOT throw
when a wallet client existed before: `clearState` never resets the
in-memory `walletClient` field, so the stale session client is returned.
This evaluates the code at the failing input of the code_bug record. -/
theorem C2_disconnect_stale_client :
    Signer.accounts stC2d = [] ∧
    stC2d.accountCell = none ∧
    stC2d.chainsInfoCell = [] ∧
    Signer.getClient stC2d none = Outcome.ok ⟨some "0xA", 5, 6, 12, 10⟩ := by decide

def stC5w : SignerState :=
  ⟨[⟨1⟩], some ⟨some "0xA", 1, some ⟨5, 6⟩⟩, [⟨1, 11, 21⟩], some ⟨some "0xA", 5, 6, 11, 1⟩⟩

/-- C5 witness: with a wallet client and a session present,
`eth_sendTransaction` is answered by the local session client and
nothing is posted to the communicator. -/
theorem C5_witness :
    Signer.request stC5w ⟨7, 8, Signer.RC.result 9⟩ (Req.sendTransaction 3) =
      ⟨Outcome.ok (RVal.hash 8), stC5w, [Event.localSendTx]⟩ :=
  (C5_sendTransaction_dispatch stC5w ⟨7, 8, Signer.RC.result 9⟩ 3).1 (by decide)

/-- C6 witness: the hex id `0x1` is normalized to 1, the switch to the
already-active configured chain 1 succeeds, and the request resolves
with the null result without posting to the communicator. -/
theorem C6_witness :
    Signer.request stC3w ⟨7, 8, Signer.RC.result 9⟩
        (Req.switchEthereumChain (ChainIdParam.hexStr "0x1")) =
      ⟨Outcome.ok RVal.nullV,
        (Signer.switchChain stC3w (normalizeChainId (ChainIdParam.hexStr "0x1"))).s,
        (Signer.switchChain stC3w (normalizeChainId (ChainIdParam.hexStr "0x1"))).events⟩ ∧
    remotePosts (Signer.request stC3w ⟨7, 8, Signer.RC.result 9⟩
        (Req.switchEthereumChain (ChainIdParam.hexStr "0x1"))).events = 0 :=
  (C6_switchEthereumChain_local stC3w ⟨7, 8, Signer.RC.result 9⟩
    (ChainIdParam.hexStr "0x1")).1 (by decide)
